import Mathlib

/-!
Verification of the pulltabs webhook notifier (src/app/pulltabs.go) against
its natural-language specification.  The Go source is shallowly embedded:
machine bytes are `Nat` values mod 256, 32-bit words are `Nat` values mod
2^32, Go strings are Lean `String`s, and the HTTP handler is a pure function
from a request record to a result record recording the response status, the
delivery tasks spawned and whether JSON decoding was attempted.
-/

namespace Pulltabs

/-! ## Data model (struct `notifier`, `pullRequestPost`, `Attachment`, `slackMessage`) -/

/-- Embedding of the Go struct `notifier` (the `StatusTmpl` field only feeds
the status page, which no claim touches, and is omitted). -/
structure notifier where
  Label : String
  Message : String
  Secret : String
  SlackURL : String
deriving Repr, DecidableEq

/-- Embedding of the anonymous `User` struct inside `pullRequestPost`. -/
structure prUser where
  Login : String
deriving Repr, DecidableEq

/-- Embedding of the anonymous `PullRequest` struct inside `pullRequestPost`.
Note the Go field `State` carries the malformed struct tag `jsong:"state"`,
so its effective JSON key is the field name `State` (matched
case-insensitively by the decoder). -/
structure prInner where
  HTMLURL : String
  State : String
  Title : String
  User : prUser
deriving Repr, DecidableEq

/-- Embedding of the anonymous `Label` struct inside `pullRequestPost`. -/
structure prLabel where
  Name : String
deriving Repr, DecidableEq

/-- Embedding of the Go struct `pullRequestPost`. -/
structure pullRequestPost where
  Action : String
  Number : Int
  PullRequest : prInner
  Label : prLabel
deriving Repr, DecidableEq

/-- Embedding of the Go struct `Attachment`. -/
structure Attachment where
  Fallback : String
  Color : String
  Pretext : String
  Title : String
  TitleLink : String
  Text : String
deriving Repr, DecidableEq

/-- Embedding of the Go struct `slackMessage`. -/
structure slackMessage where
  Text : String
  Attachments : List Attachment
deriving Repr, DecidableEq

/-! ## Go `strings.Contains` -/

/-- Embedding of Go `strings.Contains s substr` over character lists:
true iff `sub` occurs somewhere in `hay` (scan every suffix for a match). -/
def goContains : List Char → List Char → Bool
  | [], sub => sub == []
  | c :: t, sub => sub.isPrefixOf (c :: t) || goContains t sub

/-- Soundness and completeness of `goContains` against the mathematical
substring (infix) relation. -/
theorem goContains_iff_infix (hay sub : List Char) :
    goContains hay sub = true ↔ sub <:+: hay := by
  induction hay with
  | nil =>
      simp [goContains, List.infix_nil]
  | cons c t ih =>
      simp only [goContains, Bool.or_eq_true, ih, List.isPrefixOf_iff_prefix]
      constructor
      · rintro (h | h)
        · exact h.isInfix
        · exact h.trans (List.suffix_cons c t).isInfix
      · intro h
        rcases (List.infix_cons_iff.mp h) with h | h
        · exact Or.inl h
        · exact Or.inr h

/-! ## FilterPolicy: the notification condition from `payload` -/

/-- The filter condition from `payload`:
`strings.Contains(pr.Label.Name, s.Label) && pr.PullRequest.State == "open" && pr.Action == "labeled"`. -/
def shouldNotify (s : notifier) (pr : pullRequestPost) : Bool :=
  goContains pr.Label.Name.toList s.Label.toList
    && pr.PullRequest.State == "open" && pr.Action == "labeled"

/-- Example pull-request event used by the spec's filter test vectors. -/
def exampleEvent (action state labelName : String) : pullRequestPost :=
  { Action := action
    Number := 1
    PullRequest := { HTMLURL := "http://x/1", State := state, Title := "T", User := { Login := "u" } }
    Label := { Name := labelName } }

/-- C1: the filter notifies exactly when the action is "labeled", the
pull-request state is "open", and the attached label name contains the
watched label as a substring; together with the spec's four test vectors
for watched label "awaiting review". -/
theorem c1_shouldNotify_characterization :
    (∀ (s : notifier) (pr : pullRequestPost),
      shouldNotify s pr = true ↔
        (pr.Action = "labeled" ∧ pr.PullRequest.State = "open" ∧
          s.Label.toList <:+: pr.Label.Name.toList)) ∧
    shouldNotify ⟨"awaiting review", "m", "", ""⟩
      (exampleEvent "labeled" "open" "awaiting review") = true ∧
    shouldNotify ⟨"awaiting review", "m", "", ""⟩
      (exampleEvent "labeled" "closed" "awaiting review") = false ∧
    shouldNotify ⟨"awaiting review", "m", "", ""⟩
      (exampleEvent "unlabeled" "open" "awaiting review") = false ∧
    shouldNotify ⟨"awaiting review", "m", "", ""⟩
      (exampleEvent "labeled" "open" "wip") = false := by
  refine ⟨fun s pr => ?_, by decide, by decide, by decide, by decide⟩
  simp only [shouldNotify, Bool.and_eq_true, beq_iff_eq, goContains_iff_infix]
  constructor
  · rintro ⟨⟨hc, hs⟩, ha⟩
    exact ⟨ha, hs, hc⟩
  · rintro ⟨ha, hs, hc⟩
    exact ⟨⟨hc, hs⟩, ha⟩

/-! ## SHA-1 (crypto/sha1), bytes as Nat mod 256, words as Nat mod 2^32 -/

/-- Rotate a 32-bit word left by `k` bits. -/
def rotl32 (k n : Nat) : Nat :=
  ((n <<< k) ||| (n >>> (32 - k))) % 4294967296

/-- SHA-1 padding: append 0x80, zero bytes to 56 mod 64, then the bit length
as eight big-endian bytes. -/
def sha1pad (msg : List Nat) : List Nat :=
  let bitLen := 8 * msg.length
  let k := (120 - (msg.length + 1) % 64) % 64
  msg ++ [128] ++ List.replicate k 0 ++
    [(bitLen >>> 56) % 256, (bitLen >>> 48) % 256, (bitLen >>> 40) % 256,
     (bitLen >>> 32) % 256, (bitLen >>> 24) % 256, (bitLen >>> 16) % 256,
     (bitLen >>> 8) % 256, bitLen % 256]

/-- Split a byte list into 64-byte chunks (fuel-indexed structural
recursion; the fuel `l.length` supplied by `chunks64` never runs out). -/
def chunksAux : Nat → List Nat → List (List Nat)
  | 0, _ => []
  | Nat.succ f, l => if l = [] then [] else l.take 64 :: chunksAux f (l.drop 64)

/-- Split a byte list into 64-byte chunks. -/
def chunks64 (l : List Nat) : List (List Nat) :=
  chunksAux l.length l

/-- Assemble big-endian 32-bit words from bytes. -/
def bytesToWords : List Nat → List Nat
  | a :: b :: c :: d :: rest =>
      (((a % 256) <<< 24) ||| ((b % 256) <<< 16) ||| ((c % 256) <<< 8) ||| (d % 256))
        :: bytesToWords rest
  | _ => []

/-- Extend the schedule words, kept in reverse order: each step prepends
`rotl32 1 (w[i-3] xor w[i-8] xor w[i-14] xor w[i-16])`, those being the
3rd, 8th, 14th and 16th most recent words. -/
def extendLoop : Nat → List Nat → List Nat
  | 0, ws => ws
  | Nat.succ f, ws =>
      extendLoop f (rotl32 1
        ((ws.getD 2 0) ^^^ (ws.getD 7 0) ^^^ (ws.getD 13 0) ^^^ (ws.getD 15 0)) :: ws)

/-- Internal SHA-1 chaining state. -/
structure sha1State where
  h0 : Nat
  h1 : Nat
  h2 : Nat
  h3 : Nat
  h4 : Nat
deriving Repr, DecidableEq

/-- Initial SHA-1 chaining values. -/
def sha1Init : sha1State :=
  ⟨1732584193, 4023233417, 2562383102, 271733878, 3285377520⟩

/-- One pass of the 80 SHA-1 rounds over the schedule words `ws`, starting
at round index `i`. -/
def sha1Rounds : List Nat → Nat → Nat × Nat × Nat × Nat × Nat → Nat × Nat × Nat × Nat × Nat
  | [], _, st => st
  | w :: ws, i, (a, b, c, d, e) =>
      let f :=
        if i < 20 then (b &&& c) ||| ((b ^^^ 4294967295) &&& d)
        else if i < 40 then b ^^^ c ^^^ d
        else if i < 60 then (b &&& c) ||| (b &&& d) ||| (c &&& d)
        else b ^^^ c ^^^ d
      let kc :=
        if i < 20 then 1518500249
        else if i < 40 then 1859775393
        else if i < 60 then 2400959708
        else 3395469782
      let temp := (rotl32 5 a + f + e + kc + w) % 4294967296
      sha1Rounds ws (i + 1) (temp, a, rotl32 30 b, c, d)

/-- Compress one 64-byte chunk into the chaining state. -/
def sha1Compress (st : sha1State) (chunk : List Nat) : sha1State :=
  let ws := (extendLoop 64 (bytesToWords chunk).reverse).reverse
  match sha1Rounds ws 0 (st.h0, st.h1, st.h2, st.h3, st.h4) with
  | (a, b, c, d, e) =>
      ⟨(st.h0 + a) % 4294967296, (st.h1 + b) % 4294967296, (st.h2 + c) % 4294967296,
       (st.h3 + d) % 4294967296, (st.h4 + e) % 4294967296⟩

/-- Serialize one 32-bit word as four big-endian bytes. -/
def wordBytes (w : Nat) : List Nat :=
  [(w >>> 24) % 256, (w >>> 16) % 256, (w >>> 8) % 256, w % 256]

/-- SHA-1 of a byte sequence: a 20-byte digest. -/
def sha1 (msg : List Nat) : List Nat :=
  let st := (chunks64 (sha1pad msg)).foldl sha1Compress sha1Init
  wordBytes st.h0 ++ wordBytes st.h1 ++ wordBytes st.h2 ++ wordBytes st.h3 ++ wordBytes st.h4

theorem sha1_length (msg : List Nat) : (sha1 msg).length = 20 := by
  simp [sha1, wordBytes]

theorem sha1_lt (msg : List Nat) : ∀ b ∈ sha1 msg, b < 256 := by
  intro b hb
  simp [sha1, wordBytes] at hb
  rcases hb with h | h | h | h | h | h | h | h | h | h | h | h | h | h | h | h | h | h | h | h <;>
    omega

/-- HMAC-SHA1 (crypto/hmac with crypto/sha1): keys longer than the 64-byte
block are first hashed; the key is zero-padded to 64 bytes and xored with
the inner pad 0x36 and outer pad 0x5c. -/
def hmacSha1 (key msg : List Nat) : List Nat :=
  let k1 := if 64 < key.length then sha1 key else key
  let k2 := k1 ++ List.replicate (64 - k1.length) 0
  sha1 ((k2.map fun b => b ^^^ 92) ++ sha1 ((k2.map fun b => b ^^^ 54) ++ msg))

theorem hmacSha1_length (key msg : List Nat) : (hmacSha1 key msg).length = 20 :=
  sha1_length _

theorem hmacSha1_lt (key msg : List Nat) : ∀ b ∈ hmacSha1 key msg, b < 256 :=
  sha1_lt _

/-! ## Hex encoding and UTF-8 -/

/-- Lowercase hex digit for a value below 16. -/
def hexDigit (n : Nat) : Char :=
  if n < 10 then Char.ofNat (48 + n) else Char.ofNat (87 + n)

/-- Characters of the lowercase hex encoding of a byte list. -/
def hexEncodeChars (bs : List Nat) : List Char :=
  (bs.map fun b => [hexDigit ((b / 16) % 16), hexDigit (b % 16)]).flatten

/-- Lowercase hex encoding of a byte list (encoding/hex EncodeToString). -/
def hexEncode (bs : List Nat) : String :=
  String.mk (hexEncodeChars bs)

/-- UTF-8 encoding of one character. -/
def utf8Char (c : Char) : List Nat :=
  let n := c.toNat
  if n < 128 then [n]
  else if n < 2048 then [192 + n / 64, 128 + n % 64]
  else if n < 65536 then [224 + n / 4096, 128 + (n / 64) % 64, 128 + n % 64]
  else [240 + n / 262144, 128 + (n / 4096) % 64, 128 + (n / 64) % 64, 128 + n % 64]

/-- Byte sequence of a Go string (Go strings are UTF-8 byte sequences). -/
def utf8 (s : String) : List Nat :=
  (s.toList.map utf8Char).flatten

/-! ## SignatureVerifier: `validHMAC` -/

/-- HTTP request model: method, path, headers and raw body bytes. -/
structure Request where
  Method : String
  Path : String
  Headers : List (String × String)
  Body : List Nat

/-- Header lookup: first value for the key, or "" when absent
(net/http Header.Get). -/
def headerGet (hs : List (String × String)) (k : String) : String :=
  match hs with
  | [] => ""
  | (n, v) :: t => if n == k then v else headerGet t k

/-- The genuine signature header for a secret and body: HMAC-SHA1 of the
body keyed with the secret, lowercase hex, prefixed with "sha1=".  This is
the `expectedSig` computed inside `validHMAC`. -/
def signatureFor (secret : String) (body : List Nat) : String :=
  "sha1=" ++ hexEncode (hmacSha1 (utf8 secret) body)

/-- Embedding of `notifier.validHMAC`: empty secret always verifies; absent
(empty) header fails; otherwise the recomputed signature must equal the
header (hmac.Equal is byte-slice equality). -/
def validHMAC (s : notifier) (req : Request) (body : List Nat) : Bool :=
  if s.Secret == "" then true
  else
    let sig := headerGet req.Headers "X-Hub-Signature"
    if sig == "" then false
    else signatureFor s.Secret body == sig

theorem signatureFor_ne_empty (secret : String) (body : List Nat) :
    signatureFor secret body ≠ "" := by
  intro h
  have hlen : (signatureFor secret body).length = 0 := by rw [h]; rfl
  rw [signatureFor, String.length_append] at hlen
  have h5 : ("sha1=" : String).length = 5 := rfl
  omega

/-- Characterization of `validHMAC` for a nonempty secret and nonempty
header: it accepts exactly the genuine signature. -/
theorem validHMAC_char (s : notifier) (req : Request) (body : List Nat)
    (hsec : s.Secret ≠ "") (hsig : headerGet req.Headers "X-Hub-Signature" ≠ "") :
    validHMAC s req body = true ↔
      headerGet req.Headers "X-Hub-Signature" = signatureFor s.Secret body := by
  have h1 : (s.Secret == "") = false := beq_eq_false_iff_ne.mpr hsec
  have h2 : (headerGet req.Headers "X-Hub-Signature" == "") = false :=
    beq_eq_false_iff_ne.mpr hsig
  simp only [validHMAC, h1, h2, Bool.false_eq_true, if_false, beq_iff_eq]
  exact eq_comm

/-! ## JSON values and the decoder (encoding/json), bytes as Nat mod 256.
The parser below embeds the JSON grammar as read by encoding/json for the
inputs this program handles; deliberate simplifications, none observable in
any claim: numbers are integers (no fraction/exponent), string escapes do
not include the \uXXXX form, and parsed bytes are taken as code points
(exact for ASCII input). -/

/-- JSON value tree. -/
inductive Json where
  | null : Json
  | bool (b : Bool) : Json
  | num (n : Int) : Json
  | str (s : String) : Json
  | arr (xs : List Json) : Json
  | obj (fields : List (String × Json)) : Json

/-- JSON insignificant whitespace bytes: space, tab, LF, CR. -/
def jsonWs (b : Nat) : Bool :=
  b == 32 || b == 9 || b == 10 || b == 13

/-- Drop leading JSON whitespace. -/
def skipWs : List Nat → List Nat
  | [] => []
  | b :: t => if jsonWs b then skipWs t else b :: t

/-- Translate a string escape byte to the escaped byte value. -/
def escByte (b : Nat) : Option Nat :=
  if b == 34 then some 34
  else if b == 92 then some 92
  else if b == 47 then some 47
  else if b == 98 then some 8
  else if b == 102 then some 12
  else if b == 110 then some 10
  else if b == 114 then some 13
  else if b == 116 then some 9
  else none

/-- Parse the body of a JSON string after the opening quote, up to and
including the closing quote. -/
def parseStrChars : List Nat → Option (List Char × List Nat)
  | [] => none
  | 34 :: rest => some ([], rest)
  | 92 :: e :: rest =>
      match escByte e with
      | none => none
      | some c =>
          match parseStrChars rest with
          | none => none
          | some (cs, r) => some (Char.ofNat c :: cs, r)
  | b :: rest =>
      match parseStrChars rest with
      | none => none
      | some (cs, r) => some (Char.ofNat b :: cs, r)

/-- Accumulate decimal digits. -/
def digitsAcc (acc : Nat) : List Nat → Nat × List Nat
  | [] => (acc, [])
  | b :: t => if 48 ≤ b && b ≤ 57 then digitsAcc (acc * 10 + (b - 48)) t else (acc, b :: t)

/-- Parse an unsigned decimal number (at least one digit). -/
def parseNat : List Nat → Option (Nat × List Nat)
  | [] => none
  | b :: t => if 48 ≤ b && b ≤ 57 then some (digitsAcc (b - 48) t) else none

/-- Parse a JSON number (integers only, see the section comment). -/
def parseNumber (l : List Nat) : Option (Json × List Nat) :=
  match l with
  | 45 :: rest =>
      match parseNat rest with
      | some (n, r) => some (Json.num (-(n : Int)), r)
      | none => none
  | _ =>
      match parseNat l with
      | some (n, r) => some (Json.num (n : Int), r)
      | none => none

mutual

/-- Parse one JSON value (fuel-indexed recursion). -/
def parseValue : Nat → List Nat → Option (Json × List Nat)
  | 0, _ => none
  | Nat.succ fuel, l =>
      match skipWs l with
      | 34 :: rest =>
          match parseStrChars rest with
          | some (cs, r) => some (Json.str (String.mk cs), r)
          | none => none
      | 123 :: rest =>
          match skipWs rest with
          | 125 :: r => some (Json.obj [], r)
          | r =>
              match parseMembers fuel r with
              | some (ms, r2) => some (Json.obj ms, r2)
              | none => none
      | 91 :: rest =>
          match skipWs rest with
          | 93 :: r => some (Json.arr [], r)
          | r =>
              match parseElems fuel r with
              | some (xs, r2) => some (Json.arr xs, r2)
              | none => none
      | 116 :: 114 :: 117 :: 101 :: rest => some (Json.bool true, rest)
      | 102 :: 97 :: 108 :: 115 :: 101 :: rest => some (Json.bool false, rest)
      | 110 :: 117 :: 108 :: 108 :: rest => some (Json.null, rest)
      | rest => parseNumber rest

/-- Parse the members of a JSON object after the opening brace, up to and
including the closing brace. -/
def parseMembers : Nat → List Nat → Option (List (String × Json) × List Nat)
  | 0, _ => none
  | Nat.succ fuel, l =>
      match skipWs l with
      | 34 :: rest =>
          match parseStrChars rest with
          | some (cs, r) =>
              match skipWs r with
              | 58 :: r2 =>
                  match parseValue fuel r2 with
                  | some (v, r3) =>
                      match skipWs r3 with
                      | 44 :: r4 =>
                          match parseMembers fuel r4 with
                          | some (ms, r5) => some ((String.mk cs, v) :: ms, r5)
                          | none => none
                      | 125 :: r4 => some ([(String.mk cs, v)], r4)
                      | _ => none
                  | none => none
              | _ => none
          | none => none
      | _ => none

/-- Parse the elements of a JSON array after the opening bracket, up to and
including the closing bracket. -/
def parseElems : Nat → List Nat → Option (List Json × List Nat)
  | 0, _ => none
  | Nat.succ fuel, l =>
      match parseValue fuel l with
      | some (v, r) =>
          match skipWs r with
          | 44 :: r2 =>
              match parseElems fuel r2 with
              | some (xs, r3) => some (v :: xs, r3)
              | none => none
          | 93 :: r2 => some ([v], r2)
          | _ => none
      | none => none

end

/-- Parse one JSON document from the body bytes (json.Decoder.Decode reads
one value and ignores what follows it). -/
def parseJson (body : List Nat) : Option Json :=
  match parseValue (body.length + 1) body with
  | some (v, _) => some v
  | none => none

/-! ## Decoding a JSON value into `pullRequestPost` (encoding/json field
matching).  A struct field receives the value of the last incoming key that
matches its effective name; matching is exact-or-case-insensitive.  The
effective name for `State` is the field name itself, because its struct tag
key is the misspelled `jsong`, which encoding/json ignores. -/

/-- ASCII lowercase folding of one character. -/
def foldChar (c : Char) : Char :=
  if 65 ≤ c.toNat && c.toNat ≤ 90 then Char.ofNat (c.toNat + 32) else c

/-- Case folding comparison (strings.EqualFold, exact for ASCII names). -/
def eqFold (a b : String) : Bool :=
  a.toList.map foldChar == b.toList.map foldChar

/-- Value assigned to the struct field with effective name `effName`: the
last incoming member whose key matches it case-insensitively. -/
def goFieldLookup (fields : List (String × Json)) (effName : String) : Option Json :=
  match fields with
  | [] => none
  | (k, v) :: t =>
      match goFieldLookup t effName with
      | some v2 => some v2
      | none => if eqFold k effName then some v else none

/-- Decode a string-typed struct field: absent or null leaves the zero
value ""; a non-string value is an unmarshal type error. -/
def decodeStrField (fields : List (String × Json)) (effName : String) : Except String String :=
  match goFieldLookup fields effName with
  | none => Except.ok ""
  | some (Json.str s) => Except.ok s
  | some Json.null => Except.ok ""
  | some _ => Except.error "cannot unmarshal into field of type string"

/-- Decode an int-typed struct field. -/
def decodeIntField (fields : List (String × Json)) (effName : String) : Except String Int :=
  match goFieldLookup fields effName with
  | none => Except.ok 0
  | some (Json.num n) => Except.ok n
  | some Json.null => Except.ok 0
  | some _ => Except.error "cannot unmarshal into field of type int"

/-- Decode the anonymous `User` struct. -/
def decodeUser (j : Json) : Except String prUser :=
  match j with
  | Json.obj fs =>
      match decodeStrField fs "login" with
      | Except.error e => Except.error e
      | Except.ok login => Except.ok ⟨login⟩
  | Json.null => Except.ok ⟨""⟩
  | _ => Except.error "cannot unmarshal into struct User"

/-- Decode the anonymous `PullRequest` struct.  `State` is looked up by its
field name (misspelled tag), so the lowercase incoming key "state" still
matches it case-insensitively. -/
def decodePRInner (j : Json) : Except String prInner :=
  match j with
  | Json.obj fs =>
      match decodeStrField fs "html_url" with
      | Except.error e => Except.error e
      | Except.ok url =>
      match decodeStrField fs "State" with
      | Except.error e => Except.error e
      | Except.ok st =>
      match decodeStrField fs "title" with
      | Except.error e => Except.error e
      | Except.ok title =>
      match goFieldLookup fs "user" with
      | none => Except.ok ⟨url, st, title, ⟨""⟩⟩
      | some ju =>
          match decodeUser ju with
          | Except.error e => Except.error e
          | Except.ok u => Except.ok ⟨url, st, title, u⟩
  | Json.null => Except.ok ⟨"", "", "", ⟨""⟩⟩
  | _ => Except.error "cannot unmarshal into struct PullRequest"

/-- Decode the anonymous `Label` struct. -/
def decodeLabel (j : Json) : Except String prLabel :=
  match j with
  | Json.obj fs =>
      match decodeStrField fs "name" with
      | Except.error e => Except.error e
      | Except.ok name => Except.ok ⟨name⟩
  | Json.null => Except.ok ⟨""⟩
  | _ => Except.error "cannot unmarshal into struct Label"

/-- Decode a JSON value into a `pullRequestPost`. -/
def decodePullRequestPost (j : Json) : Except String pullRequestPost :=
  match j with
  | Json.obj fs =>
      match decodeStrField fs "action" with
      | Except.error e => Except.error e
      | Except.ok action =>
      match decodeIntField fs "number" with
      | Except.error e => Except.error e
      | Except.ok number =>
      match goFieldLookup fs "pull_request" with
      | none =>
          match goFieldLookup fs "label" with
          | none => Except.ok ⟨action, number, ⟨"", "", "", ⟨""⟩⟩, ⟨""⟩⟩
          | some jl =>
              match decodeLabel jl with
              | Except.error e => Except.error e
              | Except.ok lbl => Except.ok ⟨action, number, ⟨"", "", "", ⟨""⟩⟩, lbl⟩
      | some jp =>
          match decodePRInner jp with
          | Except.error e => Except.error e
          | Except.ok prv =>
              match goFieldLookup fs "label" with
              | none => Except.ok ⟨action, number, prv, ⟨""⟩⟩
              | some jl =>
                  match decodeLabel jl with
                  | Except.error e => Except.error e
                  | Except.ok lbl => Except.ok ⟨action, number, prv, lbl⟩
  | Json.null => Except.ok ⟨"", 0, ⟨"", "", "", ⟨""⟩⟩, ⟨""⟩⟩
  | _ => Except.error "cannot unmarshal into struct pullRequestPost"

/-- EventParser: `json.NewDecoder(bytes.NewReader(body)).Decode(&pr)`. -/
def parsePullRequestPost (body : List Nat) : Except String pullRequestPost :=
  match parseJson body with
  | none => Except.error "invalid JSON"
  | some j => decodePullRequestPost j

/-! ## MessageFormatter: the `slackMessage` built inside `notifier.output` -/

/-- The message value constructed in `output`: one attachment with the
fixed color "good", fallback = configured message, pretext interpolating
the watched label, the pull request's title and URL, and the fixed
call-to-action text. -/
def outputMessage (s : notifier) (pr : pullRequestPost) : slackMessage :=
  { Text := s.Message
    Attachments := [
      { Text := "Review me please"
        Color := "good"
        Fallback := s.Message
        Pretext := "Pull request tagged with " ++ s.Label
        Title := pr.PullRequest.Title
        TitleLink := pr.PullRequest.HTMLURL }] }

/-! ## JSON serialization (encoding/json Encoder with default HTML escaping) -/

/-- Lowercase hex digit as a byte. -/
def hexDigitByte (n : Nat) : Nat :=
  if n < 10 then 48 + n else 87 + n

/-- Bytes produced for one character of a JSON string by encoding/json:
quote, backslash, newline, carriage return and tab use two-byte escapes;
other control characters and the HTML-significant <, >, & use \u00XX;
U+2028/U+2029 use \u202X; everything else is emitted as UTF-8. -/
def escapeJsonChar (c : Char) : List Nat :=
  let n := c.toNat
  if n = 34 then [92, 34]
  else if n = 92 then [92, 92]
  else if n = 10 then [92, 110]
  else if n = 13 then [92, 114]
  else if n = 9 then [92, 116]
  else if n < 32 || n = 60 || n = 62 || n = 38 then
    [92, 117, 48, 48, hexDigitByte (n / 16), hexDigitByte (n % 16)]
  else if n = 8232 || n = 8233 then
    [92, 117, 50, 48, 50, hexDigitByte (n % 16)]
  else utf8Char c

/-- Serialized JSON string: quoted and escaped. -/
def encodeJsonString (s : String) : List Nat :=
  [34] ++ (s.toList.map escapeJsonChar).flatten ++ [34]

/-- Join byte chunks with a separator. -/
def joinBytes (sep : List Nat) : List (List Nat) → List Nat
  | [] => []
  | [x] => x
  | x :: y :: t => x ++ sep ++ joinBytes sep (y :: t)

/-- Marshal of the `Attachment` struct, keys in field order. -/
def encodeAttachment (a : Attachment) : List Nat :=
  [123] ++ encodeJsonString "fallback" ++ [58] ++ encodeJsonString a.Fallback ++ [44]
    ++ encodeJsonString "color" ++ [58] ++ encodeJsonString a.Color ++ [44]
    ++ encodeJsonString "pretext" ++ [58] ++ encodeJsonString a.Pretext ++ [44]
    ++ encodeJsonString "title" ++ [58] ++ encodeJsonString a.Title ++ [44]
    ++ encodeJsonString "title_link" ++ [58] ++ encodeJsonString a.TitleLink ++ [44]
    ++ encodeJsonString "text" ++ [58] ++ encodeJsonString a.Text ++ [125]

/-- Marshal of the `slackMessage` struct, keys in field order. -/
def encodeSlackMessage (m : slackMessage) : List Nat :=
  [123] ++ encodeJsonString "text" ++ [58] ++ encodeJsonString m.Text ++ [44]
    ++ encodeJsonString "attachments" ++ [58]
    ++ [91] ++ joinBytes [44] (m.Attachments.map encodeAttachment) ++ [93] ++ [125]

/-- json.Encoder.Encode of a `slackMessage`: marshal the struct and append
a newline.  Every field of the value is a string, a nested struct of
strings or a slice of those, so the marshal has no failing case; the Except
shape mirrors the Go error result, and the error branch is unreachable. -/
def encodeMessage (m : slackMessage) : Except String (List Nat) :=
  Except.ok (encodeSlackMessage m ++ [10])

/-- Embedding of `notifier.output`: the buffer is created over
`make([]byte, 2048)`, a slice of 2048 zero bytes that become the buffer's
initial contents, and the encoder appends to them. -/
def output (s : notifier) (pr : pullRequestPost) : Except String (List Nat) :=
  match encodeMessage (outputMessage s pr) with
  | Except.error e => Except.error e
  | Except.ok bs => Except.ok (List.replicate 2048 0 ++ bs)

/-! ## The `payload` handler and the router -/

/-- Observable outcome of one request: the HTTP status written, the
arguments of the `go s.postSlackMessage(c, pr)` tasks spawned, and whether
the JSON decoder was invoked on the body. -/
structure PayloadResult where
  status : Nat
  dispatched : List pullRequestPost
  parseAttempted : Bool
deriving Repr, DecidableEq

/-- Embedding of `notifier.payload` (the body is given, so the unreadable
body branch returning 500 has no counterpart). -/
def payload (s : notifier) (req : Request) : PayloadResult :=
  let body := req.Body
  if !(validHMAC s req body) then ⟨401, [], false⟩
  else
    let eventType := headerGet req.Headers "X-GitHub-Event"
    if eventType != "ping" && eventType != "pull_request" then ⟨400, [], false⟩
    else if eventType == "pull_request" then
      match parsePullRequestPost body with
      | Except.error _ => ⟨400, [], true⟩
      | Except.ok pr =>
          if shouldNotify s pr then ⟨200, [pr], true⟩
          else ⟨200, [], true⟩
    else ⟨200, [], false⟩

/-- Embedding of `notifier.ServeHTTP`: POST requests under /payload go to
`payload`; / serves the status page (status 200); anything else is 404. -/
def serveHTTP (s : notifier) (req : Request) : PayloadResult :=
  if "/payload".isPrefixOf req.Path && req.Method == "POST" then payload s req
  else if req.Path == "/" then ⟨200, [], false⟩
  else ⟨404, [], false⟩

/-- The spec's `verify(secret, body, header)`: `validHMAC` applied to a
request carrying the header. -/
def verify (secret : String) (body : List Nat) (header : String) : Bool :=
  validHMAC ⟨"", "", secret, ""⟩
    ⟨"POST", "/payload", [("X-Hub-Signature", header)], body⟩ body

/-- The handler registered by `init` at process start: label
"awaiting review", the alert message, and the zero values "" for the
`Secret` and `SlackURL` fields, which `init` does not set. -/
def registeredHandler : notifier :=
  { Label := "awaiting review"
    Message := "A Pull Request requires review"
    Secret := ""
    SlackURL := "" }

/-! ## Helper lemmas about the signature check -/

theorem validHMAC_genuine (s : notifier) (req : Request) (body : List Nat)
    (h : headerGet req.Headers "X-Hub-Signature" = signatureFor s.Secret body) :
    validHMAC s req body = true := by
  by_cases hs : s.Secret = ""
  · simp [validHMAC, hs]
  · refine (validHMAC_char s req body hs ?_).mpr h
    rw [h]
    exact signatureFor_ne_empty _ _

/-- Acceptance of the genuine header, for every secret and body. -/
theorem verify_genuine (S : String) (B : List Nat) :
    verify S B (signatureFor S B) = true := by
  show validHMAC ⟨"", "", S, ""⟩
    ⟨"POST", "/payload", [("X-Hub-Signature", signatureFor S B)], B⟩ B = true
  exact validHMAC_genuine _ _ _ rfl

/-- Little-endian base-256 value of a byte list. -/
def toNatLE : List Nat → Nat
  | [] => 0
  | b :: t => b + 256 * toNatLE t

theorem toNatLE_lt (l : List Nat) (hl : ∀ x ∈ l, x < 256) :
    toNatLE l < 256 ^ l.length := by
  induction l with
  | nil => simp [toNatLE]
  | cons b t ih =>
      have hb : b < 256 := hl b (by simp)
      have ht := ih (fun x hx => hl x (by simp [hx]))
      rw [toNatLE, List.length_cons, pow_succ]
      have h256 : (0:Nat) < 256 ^ t.length := pow_pos (by norm_num) _
      nlinarith [ht, hb]

theorem toNatLE_inj : ∀ (l1 l2 : List Nat), l1.length = l2.length →
    (∀ x ∈ l1, x < 256) → (∀ x ∈ l2, x < 256) →
    toNatLE l1 = toNatLE l2 → l1 = l2 := by
  intro l1
  induction l1 with
  | nil =>
      intro l2 hlen _ _ _
      cases l2 with
      | nil => rfl
      | cons b t => simp at hlen
  | cons b1 t1 ih =>
      intro l2 hlen h1 h2 hv
      cases l2 with
      | nil => simp at hlen
      | cons b2 t2 =>
          have hb1 : b1 < 256 := h1 b1 (by simp)
          have hb2 : b2 < 256 := h2 b2 (by simp)
          rw [toNatLE, toNatLE] at hv
          have hb : b1 = b2 := by omega
          have ht : toNatLE t1 = toNatLE t2 := by omega
          have hlt : t1 = t2 :=
            ih t2 (by simpa using hlen) (fun x hx => h1 x (by simp [hx]))
              (fun x hx => h2 x (by simp [hx])) ht
          rw [hb, hlt]

/-- Pigeonhole: a map from the infinite space of byte lists into 20-byte
digests identifies two distinct inputs. -/
theorem digest_collision (f : List Nat → List Nat)
    (hlen : ∀ l, (f l).length = 20) (hlt : ∀ l, ∀ b ∈ f l, b < 256) :
    ∃ B B2 : List Nat, B ≠ B2 ∧ f B = f B2 := by
  have hbound : ∀ n : Nat, toNatLE (f (List.replicate n 0)) < 256 ^ 20 := by
    intro n
    have h := toNatLE_lt (f (List.replicate n 0)) (hlt _)
    rwa [hlen] at h
  obtain ⟨x, y, hxy, hfeq⟩ :=
    Finite.exists_ne_map_eq_of_infinite
      (fun n : Nat => (⟨toNatLE (f (List.replicate n 0)), hbound n⟩ : Fin (256 ^ 20)))
  refine ⟨List.replicate x 0, List.replicate y 0, ?_, ?_⟩
  · intro h
    exact hxy (by simpa using congrArg List.length h)
  · exact toNatLE_inj _ _ (by rw [hlen, hlen]) (hlt _) (hlt _) (congrArg Fin.val hfeq)

/-- HMAC-SHA1 maps an infinite body space into a 20-byte digest space, so
for every key some two distinct bodies share a digest. -/
theorem hmacSha1_not_injective (key : List Nat) :
    ∃ B B2 : List Nat, B ≠ B2 ∧ hmacSha1 key B = hmacSha1 key B2 :=
  digest_collision (hmacSha1 key) (hmacSha1_length key) (hmacSha1_lt key)

theorem hexDigit_inj_fin : ∀ m n : Fin 16, hexDigit m.val = hexDigit n.val → m = n := by
  decide

theorem hexDigit_inj {m n : Nat} (hm : m < 16) (hn : n < 16)
    (h : hexDigit m = hexDigit n) : m = n :=
  congrArg Fin.val (hexDigit_inj_fin ⟨m, hm⟩ ⟨n, hn⟩ h)

theorem hexEncodeChars_inj : ∀ (l1 l2 : List Nat), (∀ x ∈ l1, x < 256) →
    (∀ x ∈ l2, x < 256) → hexEncodeChars l1 = hexEncodeChars l2 → l1 = l2 := by
  intro l1
  induction l1 with
  | nil =>
      intro l2 _ _ h
      cases l2 with
      | nil => rfl
      | cons b t => simp [hexEncodeChars] at h
  | cons b1 t1 ih =>
      intro l2 h1 h2 h
      cases l2 with
      | nil => simp [hexEncodeChars] at h
      | cons b2 t2 =>
          simp only [hexEncodeChars, List.map_cons, List.flatten_cons,
            List.cons_append, List.nil_append, List.cons.injEq] at h
          obtain ⟨hhi, hlo, htail⟩ := h
          have hb1 : b1 < 256 := h1 b1 (by simp)
          have hb2 : b2 < 256 := h2 b2 (by simp)
          have hhi' : b1 / 16 = b2 / 16 := by
            have e1 : b1 / 16 % 16 = b1 / 16 := Nat.mod_eq_of_lt (by omega)
            have e2 : b2 / 16 % 16 = b2 / 16 := Nat.mod_eq_of_lt (by omega)
            have := hexDigit_inj (m := b1 / 16 % 16) (n := b2 / 16 % 16)
              (by omega) (by omega) hhi
            omega
          have hlo' : b1 % 16 = b2 % 16 :=
            hexDigit_inj (by omega) (by omega) hlo
          have hb : b1 = b2 := by omega
          have ht : t1 = t2 :=
            ih t2 (fun x hx => h1 x (by simp [hx])) (fun x hx => h2 x (by simp [hx]))
              htail
          rw [hb, ht]

/-- Equal signature headers for the same secret force equal HMAC digests. -/
theorem signatureFor_digest_inj {S : String} {B B2 : List Nat}
    (h : signatureFor S B = signatureFor S B2) :
    hmacSha1 (utf8 S) B = hmacSha1 (utf8 S) B2 := by
  have hd := congrArg String.data h
  have hd2 : hexEncodeChars (hmacSha1 (utf8 S) B) = hexEncodeChars (hmacSha1 (utf8 S) B2) := by
    have e : ∀ bs : List Nat,
        (signatureFor S bs).data = "sha1=".data ++ hexEncodeChars (hmacSha1 (utf8 S) bs) :=
      fun bs => rfl
    rw [e B, e B2] at hd
    exact List.append_cancel_left hd
  exact hexEncodeChars_inj _ _ (hmacSha1_lt _ _) (hmacSha1_lt _ _) hd2

/-! ## Claim C2 -/

/-- C2 counterexample: the claim quantifies the rejection part over every
secret, including the empty one, where verification accepts a header signed
over a different body; and even restricted to nonempty secrets the
rejection of every different body is refuted by a pigeonhole HMAC-SHA1
collision. -/
theorem c2_counterexample :
    (verify "" [] (signatureFor "" [0]) = true ∧ ([] : List Nat) ≠ [0]) ∧
    ¬ (∀ (S : String) (B B2 : List Nat), S ≠ "" → B ≠ B2 →
        verify S B (signatureFor S B2) = false) := by
  refine ⟨⟨rfl, by decide⟩, ?_⟩
  intro hall
  obtain ⟨B, B2, hne, heq⟩ := hmacSha1_not_injective (utf8 "k")
  have h1 := hall "k" B B2 (by decide) hne
  have h2 : signatureFor "k" B2 = signatureFor "k" B := by
    rw [signatureFor, signatureFor, heq]
  rw [h2] at h1
  have h3 := verify_genuine "k" B
  rw [h1] at h3
  exact Bool.false_ne_true h3

/-- C2 amended: verification accepts the genuine header for every secret
and body; for a nonempty secret it rejects the header computed over a body
whose HMAC-SHA1 digest differs (bodies differing as byte sequences do not
suffice: the digest space is finite, see the counterexample); and with an
empty secret it accepts every header. -/
theorem c2_verify_amended (S S2 : String) (B B2 C : List Nat) (hdr : String)
    (hS2 : S2 ≠ "") (hdig : hmacSha1 (utf8 S2) B ≠ hmacSha1 (utf8 S2) B2) :
    verify S B (signatureFor S B) = true ∧
    verify S2 B (signatureFor S2 B2) = false ∧
    verify "" C hdr = true := by
  refine ⟨verify_genuine S B, ?_, by simp [verify, validHMAC]⟩
  by_contra hne
  have htrue : verify S2 B (signatureFor S2 B2) = true := by
    cases h : verify S2 B (signatureFor S2 B2) with
    | false => exact absurd h hne
    | true => rfl
  have hchar := validHMAC_char ⟨"", "", S2, ""⟩
    ⟨"POST", "/payload", [("X-Hub-Signature", signatureFor S2 B2)], B⟩ B hS2
    (by show signatureFor S2 B2 ≠ ""; exact signatureFor_ne_empty _ _)
  have heq : signatureFor S2 B2 = signatureFor S2 B := by
    have := hchar.mp htrue
    simpa [headerGet] using this
  exact hdig (signatureFor_digest_inj heq.symm)

set_option maxRecDepth 1000000 in
/-- Witness for the amended C2 at concrete inputs. -/
theorem c2_verify_amended_witness :
    (("k" : String) ≠ "" ∧ hmacSha1 (utf8 "k") [] ≠ hmacSha1 (utf8 "k") [0]) ∧
    (verify "k" [] (signatureFor "k" []) = true ∧
     verify "k" [] (signatureFor "k" [0]) = false ∧
     verify "" [7] "anything" = true) :=
  ⟨⟨by decide, by decide⟩,
   c2_verify_amended "k" "k" [] [0] [7] "anything" (by decide) (by decide)⟩

/-! ## Concrete scenarios from the spec -/

/-- Scenario 1 body. -/
def scenario1Body : String :=
  "\x7b\"action\":\"labeled\",\"label\":\x7b\"name\":\"awaiting review\"\x7d,\"pull_request\":\x7b\"state\":\"open\",\"title\":\"Fix bug\",\"html_url\":\"http://x/1\"\x7d\x7d"

/-- Scenario 2 body: scenario 1 with state closed. -/
def scenario2Body : String :=
  "\x7b\"action\":\"labeled\",\"label\":\x7b\"name\":\"awaiting review\"\x7d,\"pull_request\":\x7b\"state\":\"closed\",\"title\":\"Fix bug\",\"html_url\":\"http://x/1\"\x7d\x7d"

/-- The event decoded from scenario 1's body. -/
def scenario1PR : pullRequestPost :=
  ⟨"labeled", 0, ⟨"http://x/1", "open", "Fix bug", ⟨""⟩⟩, ⟨"awaiting review"⟩⟩

/-- Scenario 1 request, signed with the secret `S`. -/
def scenario1Req (S : String) : Request :=
  ⟨"POST", "/payload",
   [("X-Hub-Signature", signatureFor S (utf8 scenario1Body)),
    ("X-GitHub-Event", "pull_request")],
   utf8 scenario1Body⟩

/-- Scenario 2 request (no signature; used with the empty-secret handler). -/
def scenario2Req : Request :=
  ⟨"POST", "/payload", [("X-GitHub-Event", "pull_request")], utf8 scenario2Body⟩

/-- Scenario 3 request: an unsupported event type. -/
def scenario3Req : Request :=
  ⟨"POST", "/payload", [("X-GitHub-Event", "issue_comment")], utf8 scenario1Body⟩

/-- Scenario 4 request: no signature header at all. -/
def scenario4Req : Request :=
  ⟨"POST", "/payload", [("X-GitHub-Event", "pull_request")], utf8 scenario1Body⟩

/-! ## Branch lemmas for `payload` -/

theorem payload_invalid_sig (s : notifier) (req : Request)
    (hv : validHMAC s req req.Body = false) :
    payload s req = ⟨401, [], false⟩ := by
  simp [payload, hv]

theorem payload_pull_request (s : notifier) (req : Request)
    (hv : validHMAC s req req.Body = true)
    (he : headerGet req.Headers "X-GitHub-Event" = "pull_request") :
    payload s req =
      match parsePullRequestPost req.Body with
      | Except.error _ => ⟨400, [], true⟩
      | Except.ok pr =>
          if shouldNotify s pr then ⟨200, [pr], true⟩ else ⟨200, [], true⟩ := by
  simp [payload, hv, he]

theorem payload_not_pull_request (s : notifier) (req : Request)
    (he : headerGet req.Headers "X-GitHub-Event" ≠ "pull_request") :
    (payload s req).dispatched = [] ∧ (payload s req).parseAttempted = false := by
  have hbe := beq_eq_false_iff_ne.mpr he
  by_cases hv : validHMAC s req req.Body = true
  · by_cases hp : headerGet req.Headers "X-GitHub-Event" = "ping"
    · simp [payload, hv, hp, hbe, bne]
    · have hbp := beq_eq_false_iff_ne.mpr hp
      simp [payload, hv, hbp, hbe, bne]
  · have hv' : validHMAC s req req.Body = false := by
      cases h : validHMAC s req req.Body with
      | false => rfl
      | true => exact absurd h hv
    simp [payload, hv']

/-! ## Claim C3 -/

/-- A body starting with a NUL byte is not valid JSON: no value can begin
there, whatever the fuel. -/
theorem parseValue_nul (fuel : Nat) (rest : List Nat) :
    parseValue fuel (0 :: rest) = none := by
  cases fuel with
  | zero => rfl
  | succ f => rfl

theorem parseJson_nul (rest : List Nat) : parseJson (0 :: rest) = none := by
  simp only [parseJson]
  rw [parseValue_nul]

set_option maxRecDepth 10000 in
/-- C3 evidence: the serializer's buffer starts from `make([]byte, 2048)`,
so the produced bytes carry 2048 leading NUL bytes before the JSON text and
JSON-decoding the produced bytes fails instead of recovering the message. -/
theorem c3_roundtrip_fails :
    (output registeredHandler scenario1PR).isOk = true ∧
    ((output registeredHandler scenario1PR).toOption.getD []).take 2048 =
      List.replicate 2048 0 ∧
    (parseJson ((output registeredHandler scenario1PR).toOption.getD [])).isNone = true := by
  have hout : output registeredHandler scenario1PR =
      Except.ok (List.replicate 2048 0 ++
        (encodeSlackMessage (outputMessage registeredHandler scenario1PR) ++ [10])) := rfl
  refine ⟨by rw [hout]; rfl, ?_, ?_⟩
  · rw [hout]
    show (List.replicate 2048 (0:Nat) ++
        (encodeSlackMessage (outputMessage registeredHandler scenario1PR) ++ [10])).take 2048 =
      List.replicate 2048 0
    exact List.take_left' (List.length_replicate _ _)
  · have hcons : List.replicate 2048 (0:Nat) ++
        (encodeSlackMessage (outputMessage registeredHandler scenario1PR) ++ [10]) =
        0 :: (List.replicate 2047 0 ++
          (encodeSlackMessage (outputMessage registeredHandler scenario1PR) ++ [10])) := rfl
    rw [hout]
    show (parseJson (List.replicate 2048 (0:Nat) ++
        (encodeSlackMessage (outputMessage registeredHandler scenario1PR) ++ [10]))).isNone = true
    rw [hcons, parseJson_nul]
    rfl

/-! ## Claim C4 -/

set_option maxRecDepth 1000000 in
set_option maxHeartbeats 1000000 in
/-- C4: the signed scenario 1 request is answered 200 and spawns exactly
one delivery task, carrying the event whose decoded state is "open" (the
misspelled `jsong:"state"` tag leaves the decoder matching the field name
case-insensitively), and the formatted message's attachment title is
"Fix bug". -/
theorem c4_scenario1 (S M U : String) :
    payload ⟨"awaiting review", M, S, U⟩ (scenario1Req S) = ⟨200, [scenario1PR], true⟩ ∧
    (outputMessage ⟨"awaiting review", M, S, U⟩ scenario1PR).Attachments.map
      Attachment.Title = ["Fix bug"] := by
  constructor
  · have hv : validHMAC ⟨"awaiting review", M, S, U⟩ (scenario1Req S)
        (scenario1Req S).Body = true :=
      validHMAC_genuine ⟨"awaiting review", M, S, U⟩ (scenario1Req S)
        (scenario1Req S).Body rfl
    rw [payload_pull_request _ _ hv rfl]
    rfl
  · rfl

/-! ## Claim C5 -/

/-- C5: the formatted message has exactly one attachment: color "good",
fallback = configured message, pretext interpolating the watched label,
title and title-link from the event, and the fixed body text. -/
theorem c5_format_attachment (s : notifier) (pr : pullRequestPost) :
    (outputMessage s pr).Attachments.length = 1 ∧
    (outputMessage s pr).Attachments =
      [{ Fallback := s.Message
         Color := "good"
         Pretext := "Pull request tagged with " ++ s.Label
         Title := pr.PullRequest.Title
         TitleLink := pr.PullRequest.HTMLURL
         Text := "Review me please" }] :=
  ⟨rfl, rfl⟩

/-! ## Claim C6 -/

set_option maxRecDepth 1000000 in
/-- C6: one delivery task is spawned exactly when the request passes the
signature check, declares the pull_request event type, decodes, and
qualifies under the filter; every other request spawns none; and scenario
2 (state closed) is answered 200 with zero tasks. -/
theorem c6_dispatch_invariant :
    (∀ (s : notifier) (req : Request),
      (payload s req).dispatched =
        if validHMAC s req req.Body = true ∧
            headerGet req.Headers "X-GitHub-Event" = "pull_request" then
          match parsePullRequestPost req.Body with
          | Except.error _ => []
          | Except.ok pr => if shouldNotify s pr = true then [pr] else []
        else []) ∧
    payload registeredHandler scenario2Req = ⟨200, [], true⟩ := by
  constructor
  · intro s req
    by_cases hv : validHMAC s req req.Body = true
    · by_cases he : headerGet req.Headers "X-GitHub-Event" = "pull_request"
      · rw [payload_pull_request s req hv he, if_pos ⟨hv, he⟩]
        cases hp : parsePullRequestPost req.Body with
        | error e => rfl
        | ok pr =>
            cases hs : shouldNotify s pr with
            | false => simp [hs]
            | true => simp [hs]
      · rw [if_neg (fun hc => he hc.2)]
        exact (payload_not_pull_request s req he).1
    · rw [if_neg (fun hc => hv hc.1)]
      have hv' : validHMAC s req req.Body = false := by
        cases h : validHMAC s req req.Body with
        | false => rfl
        | true => exact absurd h hv
      rw [payload_invalid_sig s req hv']
  · decide

/-! ## Claim C7 -/

/-- C7: with a valid signature and an event type that is neither ping nor
pull_request, the response is 400 and the JSON decoder is never invoked. -/
theorem c7_unsupported_event_type (s : notifier) (req : Request)
    (hv : validHMAC s req req.Body = true)
    (hp : headerGet req.Headers "X-GitHub-Event" ≠ "ping")
    (he : headerGet req.Headers "X-GitHub-Event" ≠ "pull_request") :
    payload s req = ⟨400, [], false⟩ := by
  have hbp := beq_eq_false_iff_ne.mpr hp
  have hbe := beq_eq_false_iff_ne.mpr he
  simp [payload, hv, hbp, hbe, bne]

set_option maxRecDepth 1000000 in
/-- Witness for C7 at the issue_comment scenario. -/
theorem c7_unsupported_event_type_witness :
    (validHMAC registeredHandler scenario3Req scenario3Req.Body = true ∧
     headerGet scenario3Req.Headers "X-GitHub-Event" ≠ "ping" ∧
     headerGet scenario3Req.Headers "X-GitHub-Event" ≠ "pull_request") ∧
    payload registeredHandler scenario3Req = ⟨400, [], false⟩ :=
  ⟨⟨by decide, by decide, by decide⟩,
   c7_unsupported_event_type registeredHandler scenario3Req
     (by decide) (by decide) (by decide)⟩

/-! ## Claim C8 -/

/-- C8: with a nonempty secret and an absent (empty) signature header,
verification fails and the response is 401 with no parsing and no tasks. -/
theorem c8_missing_signature (s : notifier) (req : Request)
    (hsec : s.Secret ≠ "") (hsig : headerGet req.Headers "X-Hub-Signature" = "") :
    validHMAC s req req.Body = false ∧ payload s req = ⟨401, [], false⟩ := by
  have hbsec := beq_eq_false_iff_ne.mpr hsec
  have hfalse : validHMAC s req req.Body = false := by
    simp [validHMAC, hbsec, hsig]
  exact ⟨hfalse, payload_invalid_sig s req hfalse⟩

set_option maxRecDepth 1000000 in
/-- Witness for C8 at a concrete configuration with secret "topsecret". -/
theorem c8_missing_signature_witness :
    ((("topsecret" : String) ≠ "") ∧
     headerGet scenario4Req.Headers "X-Hub-Signature" = "") ∧
    (validHMAC ⟨"awaiting review", "m", "topsecret", "u"⟩ scenario4Req
        scenario4Req.Body = false ∧
     payload ⟨"awaiting review", "m", "topsecret", "u"⟩ scenario4Req = ⟨401, [], false⟩) :=
  ⟨⟨by decide, by decide⟩,
   c8_missing_signature ⟨"awaiting review", "m", "topsecret", "u"⟩ scenario4Req
     (by decide) (by decide)⟩

/-! ## Claim C9 -/

/-- C9: formatting-and-serialization is total: `output` never takes its
error branch, because marshalling this all-string message cannot fail. -/
theorem c9_output_never_fails (s : notifier) (pr : pullRequestPost) :
    ∃ bs, output s pr = Except.ok bs :=
  ⟨List.replicate 2048 0 ++ (encodeSlackMessage (outputMessage s pr) ++ [10]), rfl⟩

/-! ## Claim C10 -/

/-- C10: the handler registered at process start has the empty secret and
empty outbound URL, so signature verification succeeds for every request
and body regardless of the X-Hub-Signature header. -/
theorem c10_registered_verification_disabled :
    registeredHandler.Secret = "" ∧ registeredHandler.SlackURL = "" ∧
    ∀ (req : Request) (body : List Nat),
      validHMAC registeredHandler req body = true :=
  ⟨rfl, rfl, fun _ _ => rfl⟩

end Pulltabs
